import Mathlib

/-!
Verification development for the CLIP embedding HTTP service
(`clip_api.py`).  The service is a thin FastAPI wrapper: it normalizes one
of three input kinds (`text`, `image_url`, `image_base64`), invokes an
opaque pretrained encoder, and returns the embedding vector together with
its length.  The pretrained model, the HTTP client (`requests`) and the
image decoder (PIL) are external dependencies; they are modelled as
oracles/parameters, while every line of control flow of the repository
itself is embedded faithfully below.
-/

namespace ClipApi

/-- Error value corresponding to `fastapi.HTTPException(status_code, detail)`. -/
structure HTTPError where
  status_code : Nat
  detail : String
  deriving DecidableEq

/-- Python exception values reaching the catch-all `except Exception as e`
of `get_embeddings`: either an inner `HTTPException` (raised by
`download_image` / `process_base64_image`) or any other exception carrying
a message (base64 errors, PIL errors, model errors). -/
inductive PyExc where
  | http : Nat → String → PyExc
  | other : String → PyExc
  deriving DecidableEq

/-- Python `str(e)`.  For Starlette/FastAPI `HTTPException`, `__str__`
returns `f"{status_code}: {detail}"`; for ordinary exceptions the message. -/
def pyStr : PyExc → String
  | PyExc.http code detail => toString code ++ ": " ++ detail
  | PyExc.other msg => msg

/-- The `InputType` enum of the source. -/
inductive InputType where
  | text
  | image_url
  | image_base64
  deriving DecidableEq

/-- The `EmbeddingRequest` pydantic model: a kind and a payload string
(modelled as its character list). -/
structure EmbeddingRequest where
  type : InputType
  input : List Char

/-- The JSON object returned by `get_embeddings` on success:
`{"status": ..., "embeddings": ..., "embedding_dimension": ...}`.
Embedding entries are opaque floating-point values, represented by an
arbitrary type `α`. -/
structure EmbeddingResponse (α : Type) where
  status : String
  embeddings : List α
  embedding_dimension : Nat

/-! ### Base64 decoding (`base64.b64decode`, non-strict mode)

`base64.b64decode(s)` for a `str` argument first encodes to ASCII
(rejecting non-ASCII input) and then runs CPython's
`binascii.a2b_base64(_, strict_mode=False)`: characters outside the
base64 alphabet are discarded, `'='` padding may terminate decoding once
the current quad can be completed, and a leftover of 1 data character
(mod 4) or an incomplete quad at the end is an error. -/

/-- The standard base64 alphabet: value of a data character, `none` for
characters outside the alphabet (including the pad `'='`). -/
def b64Table (c : Char) : Option Nat :=
  if 'A' ≤ c ∧ c ≤ 'Z' then some (c.toNat - 65)
  else if 'a' ≤ c ∧ c ≤ 'z' then some (c.toNat - 97 + 26)
  else if '0' ≤ c ∧ c ≤ '9' then some (c.toNat - 48 + 52)
  else if c = '+' then some 62
  else if c = '/' then some 63
  else none

/-- The decoding loop of `binascii.a2b_base64` (non-strict mode), with the
state variables `quad_pos`, `leftchar`, `pads` of the C implementation and
an accumulator of output bytes (in reverse). -/
def b64decodeLoop : List Char → Nat → Nat → Nat → List Nat → Except String (List Nat)
  | [], quadPos, _, _, acc =>
      if quadPos = 0 then Except.ok acc.reverse
      else if quadPos = 1 then
        Except.error ("Invalid base64-encoded string: number of data characters (" ++
          toString (acc.length / 3 * 4 + 1) ++ ") cannot be 1 more than a multiple of 4")
      else Except.error "Incorrect padding"
  | c :: rest, quadPos, leftchar, pads, acc =>
      if c = '=' then
        if 2 ≤ quadPos ∧ 4 ≤ quadPos + (pads + 1) then Except.ok acc.reverse
        else b64decodeLoop rest quadPos leftchar (if 2 ≤ quadPos then pads + 1 else pads) acc
      else
        match b64Table c with
        | none => b64decodeLoop rest quadPos leftchar pads acc
        | some v =>
          match quadPos with
          | 0 => b64decodeLoop rest 1 v 0 acc
          | 1 => b64decodeLoop rest 2 (v % 16) 0 ((leftchar * 4 + v / 16) :: acc)
          | 2 => b64decodeLoop rest 3 (v % 4) 0 ((leftchar * 16 + v / 4) :: acc)
          | _ => b64decodeLoop rest 0 0 0 ((leftchar * 64 + v) :: acc)

/-- `base64.b64decode` on a `str` argument (default, non-validating mode). -/
def b64decode (s : List Char) : Except String (List Nat) :=
  if s.all (fun c => c.toNat < 128) then b64decodeLoop s 0 0 0 []
  else Except.error "string argument should contain only ASCII characters"

/-! ### Python `str.split` on a non-empty separator -/

/-- Index of the first occurrence of `sep` as a contiguous sublist of `s`
(Python `s.find(sep)` as an `Option`). -/
def findSubstr (sep : List Char) : List Char → Option Nat
  | [] => if sep.isPrefixOf [] then some 0 else none
  | c :: rest =>
      if sep.isPrefixOf (c :: rest) then some 0
      else (findSubstr sep rest).map (· + 1)

/-- Worker for `pySplit`, with fuel to make the recursion structural.  One
unit of fuel is spent per separator occurrence consumed. -/
def pySplitF (sep : List Char) : Nat → List Char → List (List Char)
  | 0, s => [s]
  | fuel + 1, s =>
      match findSubstr sep s with
      | none => [s]
      | some i => s.take i :: pySplitF sep fuel (s.drop (i + sep.length))

/-- Python `s.split(sep)` for a non-empty separator `sep`: splits at each
leftmost non-overlapping occurrence of `sep`.  `s.length + 1` units of fuel
always suffice because every occurrence consumes at least one character. -/
def pySplit (sep s : List Char) : List (List Char) :=
  pySplitF sep (s.length + 1) s

/-- The separator literal `'base64,'` used by `process_base64_image`. -/
def sepB64 : List Char := ['b', 'a', 's', 'e', '6', '4', ',']

/-! ### Input normalization (`download_image`, `process_base64_image`) -/

/-- Wraps the `try/except` of `process_base64_image`: any exception from
`base64.b64decode` becomes `HTTPException(422, "Error processing base64 image: " + str(e))`. -/
def wrapB64Error : Except String (List Nat) → Except HTTPError (List Nat)
  | Except.ok bs => Except.ok bs
  | Except.error msg => Except.error ⟨422, "Error processing base64 image: " ++ msg⟩

/-- `process_base64_image`: if `'base64,' in base64_string` then
`base64_string = base64_string.split('base64,')[1]`, then
`base64.b64decode(base64_string)`; failures become a 422 `HTTPException`.
(When the separator occurs, the split has at least two parts, so index 1
is in range and `getD` equals Python's `[1]`.) -/
def process_base64_image (s : List Char) : Except HTTPError (List Nat) :=
  wrapB64Error (b64decode
    (if (findSubstr sepB64 s).isSome then (pySplit sepB64 s).getD 1 [] else s))

/-- An HTTP response as seen through the `requests` library: a status code
and a byte body (`response.content`). -/
structure HttpResponse where
  status_code : Nat
  content : List Nat

/-- Oracle for the external network: `requests.get(url, timeout=...)`
either raises (network failure / timeout — the error case, carrying the
exception message) or returns a response. -/
def Net : Type := List Char → Nat → Except String HttpResponse

/-- Modelled from the spec: `response.raise_for_status()` of the external
`requests` library, which the spec describes as failing on any non-2xx
response status. -/
def raise_for_status (r : HttpResponse) : Except String Unit :=
  if 200 ≤ r.status_code ∧ r.status_code ≤ 299 then Except.ok ()
  else Except.error ("HTTP error " ++ toString r.status_code)

/-- The timeout literal of `requests.get(url, timeout=10)` in `download_image`. -/
def requestTimeout : Nat := 10

/-- `download_image`: `requests.get(url, timeout=10)`, then
`response.raise_for_status()`, then return `response.content`; any
exception becomes `HTTPException(422, "Error downloading image: " + str(e))`. -/
def download_image (net : Net) (url : List Char) : Except HTTPError (List Nat) :=
  match net url requestTimeout with
  | Except.error cause => Except.error ⟨422, "Error downloading image: " ++ cause⟩
  | Except.ok resp =>
      match raise_for_status resp with
      | Except.error cause => Except.error ⟨422, "Error downloading image: " ++ cause⟩
      | Except.ok _ => Except.ok resp.content

/-! ### The embedding endpoint -/

/-- Oracle for the opaque pretrained CLIP model (plus tokenizer, PIL image
decoding and preprocessing, all external dependencies).  `encode_text`
covers `clip.tokenize` + `model.encode_text` + `.tolist()[0]` on a text
payload; `encode_image` covers `Image.open` + `preprocess` +
`model.encode_image` + `.tolist()[0]` on decoded image bytes.  Either may
fail with an exception message (tokenizer errors, unparseable image bytes,
inference faults).  Embedding entries are opaque values of type `α`. -/
structure ClipModel (α : Type) where
  encode_text : List Char → Except String (List α)
  encode_image : List Nat → Except String (List α)

/-- The body of the `try:` block of `get_embeddings`: dispatch on the
request type, normalize the input, and run the encoder.  Inner
`HTTPException`s propagate as `PyExc.http`; all other exceptions as
`PyExc.other`. -/
def runEmbedding {α : Type} (net : Net) (m : ClipModel α) (req : EmbeddingRequest) :
    Except PyExc (List α) :=
  match req.type with
  | InputType.text =>
      match m.encode_text req.input with
      | Except.ok v => Except.ok v
      | Except.error msg => Except.error (PyExc.other msg)
  | InputType.image_url =>
      match download_image net req.input with
      | Except.error he => Except.error (PyExc.http he.status_code he.detail)
      | Except.ok bytes =>
          match m.encode_image bytes with
          | Except.ok v => Except.ok v
          | Except.error msg => Except.error (PyExc.other msg)
  | InputType.image_base64 =>
      match process_base64_image req.input with
      | Except.error he => Except.error (PyExc.http he.status_code he.detail)
      | Except.ok bytes =>
          match m.encode_image bytes with
          | Except.ok v => Except.ok v
          | Except.error msg => Except.error (PyExc.other msg)

/-- `POST /embeddings` handler `get_embeddings`: on success returns
`{"status": "success", "embeddings": embedding, "embedding_dimension": len(embedding)}`;
the catch-all `except Exception as e` re-raises `HTTPException(422, str(e))`. -/
def get_embeddings {α : Type} (net : Net) (m : ClipModel α) (req : EmbeddingRequest) :
    Except HTTPError (EmbeddingResponse α) :=
  match runEmbedding net m req with
  | Except.ok emb => Except.ok ⟨"success", emb, emb.length⟩
  | Except.error e => Except.error ⟨422, pyStr e⟩

/-! ### The health endpoint -/

/-- The startup device selection:
`device = "cuda" if torch.cuda.is_available() else "cpu"`. -/
def selectDevice (cudaAvailable : Bool) : String :=
  if cudaAvailable then "cuda" else "cpu"

/-- The JSON object returned by `GET /health`. -/
structure HealthResponse where
  status : String
  device : String
  model : String
  deriving DecidableEq

/-- `GET /health` handler `health_check`: unconditionally returns
`{"status": "healthy", "device": device, "model": "ViT-B/32"}`.  The
handler reads no mutable state (only the startup `device` string, modelled
as a parameter) and performs no effects. -/
def health_check (device : String) : Except HTTPError HealthResponse :=
  Except.ok ⟨"healthy", device, "ViT-B/32"⟩

/-! ### Concrete instances used by witnesses and counterexamples -/

/-- A network oracle whose every fetch fails (unreachable host). -/
def failNet : Net := fun _ _ => Except.error "unreachable host"

/-- A model oracle over `Int` entries that always returns a 512-wide vector. -/
def stubModel : ClipModel Int :=
  ⟨fun _ => Except.ok (List.replicate 512 0), fun _ => Except.ok (List.replicate 512 0)⟩

/-- Modelled from the spec: the fixed output width of the ViT-B/32 CLIP
encoder (the pretrained model is an external dependency; the spec states
its output width is 512). -/
def clipOutputDim : Nat := 512

/-- The data-URL header of the spec's example, `"data:image/png;base64,"`. -/
def dataUrlHeader : List Char :=
  ['d', 'a', 't', 'a', ':', 'i', 'm', 'a', 'g', 'e', '/', 'p', 'n', 'g', ';',
   'b', 'a', 's', 'e', '6', '4', ',']

/-- Concrete payload `"base64,QU=="` used to refute claim C2: it decodes
successfully under `base64.b64decode`, but contains the substring
`'base64,'`, so prefixing a data-URL header changes which split segment
`process_base64_image` decodes. -/
def sC2 : List Char := ['b', 'a', 's', 'e', '6', '4', ',', 'Q', 'U', '=', '=']

/-- Concrete input `"QQ==base64,QUJEbase64,RUZH"` used to refute claim C8:
the substring `'base64,'` occurs twice, so `split('base64,')[1]` is the
segment between the two occurrences, not the whole remainder after the
first. -/
def sC8 : List Char :=
  ['Q', 'Q', '=', '=', 'b', 'a', 's', 'e', '6', '4', ',',
   'Q', 'U', 'J', 'E', 'b', 'a', 's', 'e', '6', '4', ',', 'R', 'U', 'Z', 'H']

/-- Definition following the words of claim C8: everything after (and
excluding) the first occurrence of `'base64,'`, or the whole string when
the substring does not occur. -/
def remainderAfterFirst (s : List Char) : List Char :=
  match findSubstr sepB64 s with
  | some i => s.drop (i + sepB64.length)
  | none => s

/-- The segment of `r` extending up to (and excluding) the next occurrence
of `'base64,'`, or all of `r` if there is none.  Used to phrase the
amended claim C8. -/
def segmentUpToNextSep (r : List Char) : List Char :=
  match findSubstr sepB64 r with
  | some j => r.take j
  | none => r

/-- The spec's example of malformed base64 input, `"not-valid-base64!!"`. -/
def badB64 : List Char :=
  ['n', 'o', 't', '-', 'v', 'a', 'l', 'i', 'd', '-', 'b', 'a', 's', 'e', '6', '4', '!', '!']

/-- Characters kept by the lenient base64 decoder: the 64 alphabet
characters and the pad `'='`. -/
def isB64Char (c : Char) : Bool := (b64Table c).isSome || c = '='

/-- Concrete input `"QQ==base64,QUJE"` (a single `'base64,'` occurrence)
used as witness instantiation for the amended claim C8. -/
def sW8 : List Char :=
  ['Q', 'Q', '=', '=', 'b', 'a', 's', 'e', '6', '4', ',', 'Q', 'U', 'J', 'E']

/-! ### Lemmas about `findSubstr` and `pySplit` -/

lemma findSubstr_nil {sep : List Char} (hsep : sep ≠ []) : findSubstr sep [] = none := by
  cases sep with
  | nil => exact absurd rfl hsep
  | cons a tl => simp [findSubstr, List.isPrefixOf]

lemma findSubstr_some_ne_nil {sep s : List Char} {i : Nat} (hsep : sep ≠ [])
    (h : findSubstr sep s = some i) : s ≠ [] := by
  intro hnil
  rw [hnil, findSubstr_nil hsep] at h
  exact Option.noConfusion h

lemma pySplitF_fuel {sep : List Char} (hsep : sep ≠ []) :
    ∀ fuel t, t.length < fuel → pySplitF sep fuel t = pySplit sep t := by
  intro fuel
  induction fuel using Nat.strong_induction_on with
  | _ fuel ih =>
    intro t hlt
    match fuel, hlt with
    | f + 1, hlt =>
      have hdrop : ∀ i, findSubstr sep t = some i →
          (t.drop (i + sep.length)).length < t.length := by
        intro i hi
        have ht : t ≠ [] := findSubstr_some_ne_nil hsep hi
        have hlen : 0 < t.length := List.length_pos.mpr ht
        have hsl : 0 < sep.length := List.length_pos.mpr hsep
        rw [List.length_drop]
        omega
      cases hfs : findSubstr sep t with
      | none =>
        rw [pySplit]
        simp [pySplitF, hfs]
      | some i =>
        have h1 : pySplitF sep (f + 1) t =
            t.take i :: pySplitF sep f (t.drop (i + sep.length)) := by
          simp [pySplitF, hfs]
        have h2 : pySplit sep t =
            t.take i :: pySplitF sep t.length (t.drop (i + sep.length)) := by
          rw [pySplit]
          simp [pySplitF, hfs]
        have hd := hdrop i hfs
        have hf : pySplitF sep f (t.drop (i + sep.length)) =
            pySplit sep (t.drop (i + sep.length)) := by
          apply ih f (by omega)
          omega
        have ht : pySplitF sep t.length (t.drop (i + sep.length)) =
            pySplit sep (t.drop (i + sep.length)) := by
          apply ih t.length (by omega)
          omega
        rw [h1, h2, hf, ht]

lemma pySplit_eq_none {sep s : List Char} (h : findSubstr sep s = none) :
    pySplit sep s = [s] := by
  rw [pySplit]
  simp [pySplitF, h]

lemma pySplit_eq_cons {sep s : List Char} {i : Nat} (hsep : sep ≠ [])
    (h : findSubstr sep s = some i) :
    pySplit sep s = s.take i :: pySplit sep (s.drop (i + sep.length)) := by
  have ht : s ≠ [] := findSubstr_some_ne_nil hsep h
  have hlen : 0 < s.length := List.length_pos.mpr ht
  have hsl : 0 < sep.length := List.length_pos.mpr hsep
  rw [pySplit]
  simp only [pySplitF, h]
  congr 1
  apply pySplitF_fuel hsep
  rw [List.length_drop]
  omega

lemma sepB64_ne_nil : sepB64 ≠ [] := by simp [sepB64]

lemma findSubstr_header (s : List Char) :
    findSubstr sepB64 (dataUrlHeader ++ s) = some 15 := by
  simp [findSubstr, dataUrlHeader, sepB64, List.isPrefixOf]

lemma pySplit_header (s : List Char) (h : findSubstr sepB64 s = none) :
    pySplit sepB64 (dataUrlHeader ++ s) =
      [['d', 'a', 't', 'a', ':', 'i', 'm', 'a', 'g', 'e', '/', 'p', 'n', 'g', ';'], s] := by
  rw [pySplit_eq_cons sepB64_ne_nil (findSubstr_header s)]
  have hdrop : (dataUrlHeader ++ s).drop (15 + sepB64.length) = s := by
    simp [dataUrlHeader, sepB64]
  have htake : (dataUrlHeader ++ s).take 15 =
      ['d', 'a', 't', 'a', ':', 'i', 'm', 'a', 'g', 'e', '/', 'p', 'n', 'g', ';'] := by
    simp [dataUrlHeader]
  rw [hdrop, htake, pySplit_eq_none h]

/-! ### Claim C2 -/

/-- C2, counterexample: the payload `sC2 = "base64,QU=="` decodes to bytes
under `base64.b64decode`, yet `process_base64_image` on the data-URL
prefixed form and on the bare form yields different decoded bytes
(`[]` versus `[65]`), because the payload itself contains `'base64,'` and
Python's `split('base64,')[1]` selects a different segment in the two
cases.  This refutes the claim as universally stated. -/
theorem c2_counterexample :
    b64decode sC2 = Except.ok [109, 171, 30, 235, 132, 20] ∧
    process_base64_image sC2 = Except.ok [65] ∧
    process_base64_image (dataUrlHeader ++ sC2) = Except.ok [] ∧
    process_base64_image (dataUrlHeader ++ sC2) ≠ process_base64_image sC2 := by
  refine ⟨rfl, rfl, rfl, ?_⟩
  intro hcontra
  have h1 : process_base64_image (dataUrlHeader ++ sC2) = Except.ok [] := rfl
  have h2 : process_base64_image sC2 = Except.ok [65] := rfl
  rw [h1, h2] at hcontra
  simp at hcontra

/-- C2, amended: for every payload that does not contain the substring
`'base64,'` (true in particular of every canonical base64 encoding, whose
alphabet excludes `','`), submitting the payload bare and with the
data-URL header `"data:image/png;base64,"` prefixed produces identical
decoded bytes from `process_base64_image`, hence identical downstream
embeddings. -/
theorem c2_data_url_equiv (s : List Char) (h : findSubstr sepB64 s = none) :
    process_base64_image (dataUrlHeader ++ s) = process_base64_image s := by
  rw [process_base64_image, process_base64_image]
  rw [findSubstr_header s, h]
  simp [pySplit_header s h]

/-- C2, witness: instantiation of `c2_data_url_equiv` at the concrete
payload `"QUJD"`. -/
theorem c2_witness :
    findSubstr sepB64 ['Q', 'U', 'J', 'D'] = none ∧
    process_base64_image (dataUrlHeader ++ ['Q', 'U', 'J', 'D']) =
      process_base64_image ['Q', 'U', 'J', 'D'] :=
  ⟨rfl, c2_data_url_equiv ['Q', 'U', 'J', 'D'] rfl⟩

/-! ### Claim C8 -/

lemma pySplit_getD_one {s : List Char} {i : Nat} (h : findSubstr sepB64 s = some i) :
    (pySplit sepB64 s).getD 1 [] = segmentUpToNextSep (s.drop (i + sepB64.length)) := by
  rw [pySplit_eq_cons sepB64_ne_nil h]
  cases hr : findSubstr sepB64 (s.drop (i + sepB64.length)) with
  | none => rw [pySplit_eq_none hr]; simp [segmentUpToNextSep, hr]
  | some j => rw [pySplit_eq_cons sepB64_ne_nil hr]; simp [segmentUpToNextSep, hr]

/-- C8, counterexample: on `sC8 = "QQ==base64,QUJEbase64,RUZH"` (first
occurrence of `'base64,'` at index 4) the code decodes the split segment
`"QUJE"` to `[65, 66, 68]`, while decoding the whole remainder after the
first occurrence — what the claim states — fails with an incorrect-padding
error.  The claim as stated is therefore false. -/
theorem c8_counterexample :
    findSubstr sepB64 sC8 = some 4 ∧
    process_base64_image sC8 = Except.ok [65, 66, 68] ∧
    wrapB64Error (b64decode (remainderAfterFirst sC8)) =
      Except.error ⟨422, "Error processing base64 image: Incorrect padding"⟩ ∧
    process_base64_image sC8 ≠ wrapB64Error (b64decode (remainderAfterFirst sC8)) := by
  refine ⟨rfl, rfl, rfl, ?_⟩
  intro hcontra
  have h1 : process_base64_image sC8 = Except.ok [65, 66, 68] := rfl
  have h2 : wrapB64Error (b64decode (remainderAfterFirst sC8)) =
      Except.error ⟨422, "Error processing base64 image: Incorrect padding"⟩ := rfl
  rw [h1, h2] at hcontra
  exact Except.noConfusion hcontra

/-- C8, amended: when `'base64,'` occurs (first occurrence at index `i`),
`process_base64_image` discards everything up to and including that
occurrence and decodes only the segment extending to the *next* occurrence
of `'base64,'` (or to the end when there is no further occurrence) —
Python's `split('base64,')[1]`; strings without the substring are decoded
whole. -/
theorem c8_split_segment (s : List Char) :
    (∀ i, findSubstr sepB64 s = some i →
      process_base64_image s =
        wrapB64Error (b64decode (segmentUpToNextSep (s.drop (i + sepB64.length))))) ∧
    (findSubstr sepB64 s = none →
      process_base64_image s = wrapB64Error (b64decode s)) := by
  constructor
  · intro i hi
    rw [process_base64_image, pySplit_getD_one hi]
    simp [hi]
  · intro h
    rw [process_base64_image]
    simp [h]

/-- C8, witness: instantiation of `c8_split_segment` on
`sW8 = "QQ==base64,QUJE"`, whose first `'base64,'` occurrence is at
index 4. -/
theorem c8_witness :
    findSubstr sepB64 sW8 = some 4 ∧
    process_base64_image sW8 =
      wrapB64Error (b64decode (segmentUpToNextSep (sW8.drop (4 + sepB64.length)))) :=
  ⟨rfl, (c8_split_segment sW8).1 4 rfl⟩

/-! ### Claim C10 -/

lemma b64decodeLoop_filter (s : List Char) :
    ∀ qp lc pads acc, b64decodeLoop s qp lc pads acc =
      b64decodeLoop (s.filter isB64Char) qp lc pads acc := by
  induction s with
  | nil => intro qp lc pads acc; rfl
  | cons c rest ih =>
    intro qp lc pads acc
    by_cases hc : c = '='
    · subst hc
      rw [List.filter_cons_of_pos (by simp [isB64Char])]
      simp only [b64decodeLoop, if_pos rfl]
      split_ifs <;> first | rfl | apply ih
    · cases ht : b64Table c with
      | none =>
        rw [List.filter_cons_of_neg (by simp [isB64Char, ht, hc])]
        simp only [b64decodeLoop, if_neg hc, ht]
        exact ih qp lc pads acc
      | some v =>
        rw [List.filter_cons_of_pos (by simp [isB64Char, ht])]
        rcases qp with _ | _ | _ | n
        · simp only [b64decodeLoop, if_neg hc, ht]
          exact ih 1 v 0 acc
        · simp only [b64decodeLoop, if_neg hc, ht]
          exact ih 2 (v % 16) 0 _
        · simp only [b64decodeLoop, if_neg hc, ht]
          exact ih 3 (v % 4) 0 _
        · simp only [b64decodeLoop, if_neg hc, ht]
          exact ih 0 0 0 _

lemma all_ascii_filter {s : List Char} (h : s.all (fun c => c.toNat < 128) = true) :
    (s.filter isB64Char).all (fun c => c.toNat < 128) = true := by
  simp only [List.all_eq_true] at h ⊢
  intro a ha
  exact h a (List.mem_of_mem_filter ha)

/-- C10: `base64.b64decode` as invoked by `process_base64_image` is
lenient — characters outside the base64 alphabet (and the pad `'='`) are
discarded before decoding, so decoding an ASCII string equals decoding its
projection onto alphabet/pad characters; in particular `"QUJD!!"`, which
contains invalid characters, decodes successfully, and decoding fails only
through the padding/length checks on the remaining alphabet characters
(e.g. `"not-valid-base64!!"` fails with an incorrect-padding error, its 14
data characters not forming complete quads). -/
theorem c10_lenient_decoding :
    (∀ s : List Char, s.all (fun c => c.toNat < 128) = true →
      b64decode s = b64decode (s.filter isB64Char)) ∧
    b64decode ['Q', 'U', 'J', 'D', '!', '!'] = Except.ok [65, 66, 67] ∧
    b64decode badB64 = Except.error "Incorrect padding" := by
  refine ⟨?_, rfl, rfl⟩
  intro s h
  rw [b64decode, b64decode, if_pos h, if_pos (all_ascii_filter h)]
  exact b64decodeLoop_filter s 0 0 0 []

/-- C10, witness: instantiation of `c10_lenient_decoding` at the ASCII
string `"QU!JD"`, which contains the invalid character `'!'`. -/
theorem c10_witness :
    (['Q', 'U', '!', 'J', 'D'].all (fun c => c.toNat < 128) = true) ∧
    b64decode ['Q', 'U', '!', 'J', 'D'] =
      b64decode (['Q', 'U', '!', 'J', 'D'].filter isB64Char) :=
  ⟨rfl, c10_lenient_decoding.1 ['Q', 'U', '!', 'J', 'D'] rfl⟩

/-! ### The error shape of `get_embeddings` (shared helper) -/

lemma get_embeddings_error_cases {α : Type} (net : Net) (m : ClipModel α)
    (req : EmbeddingRequest) (e : HTTPError)
    (h : get_embeddings net m req = Except.error e) :
    ∃ pe, runEmbedding net m req = Except.error pe ∧ e = ⟨422, pyStr pe⟩ := by
  cases hr : runEmbedding net m req with
  | ok v =>
    simp only [get_embeddings, hr] at h
    exact Except.noConfusion h
  | error pe =>
    simp only [get_embeddings, hr, Except.error.injEq] at h
    exact ⟨pe, rfl, h.symm⟩

/-! ### Claim C5 -/

/-- C5: every failure of the `POST /embeddings` handler — download
failure, base64 decode failure, image decode failure or inference failure,
on any request kind and any oracle behavior — surfaces as an
`HTTPException` with status code 422; no failure produces a status in the
5xx class. -/
theorem c5_uniform_422 {α : Type} (net : Net) (m : ClipModel α)
    (req : EmbeddingRequest) (e : HTTPError)
    (h : get_embeddings net m req = Except.error e) :
    e.status_code = 422 ∧ ∀ n, 500 ≤ n → n ≤ 599 → e.status_code ≠ n := by
  obtain ⟨pe, _, he⟩ := get_embeddings_error_cases net m req e h
  subst he
  exact ⟨rfl, by intro n h5 h6 hc; simp at hc; omega⟩

/-- C5, witness: instantiation of `c5_uniform_422` on a failing download. -/
theorem c5_witness :
    get_embeddings failNet stubModel ⟨InputType.image_url, ['x']⟩ =
      Except.error ⟨422, "422: Error downloading image: unreachable host"⟩ ∧
    (⟨422, "422: Error downloading image: unreachable host"⟩ : HTTPError).status_code = 422 :=
  ⟨rfl, (c5_uniform_422 failNet stubModel ⟨InputType.image_url, ['x']⟩ _ rfl).1⟩

/-! ### Claim C3 -/

/-- C3: a `POST /embeddings` request of kind `image_base64` whose input is
malformed base64 never yields anything but a 422 error: whenever the
handler fails on the `image_base64` path (in particular on the decode
failure such input causes), the resulting status code is 422 and not 500.
The handler is a total function, so no input crashes it. -/
theorem c3_malformed_base64_422 {α : Type} (net : Net) (m : ClipModel α)
    (s : List Char) (e : HTTPError)
    (h : get_embeddings net m ⟨InputType.image_base64, s⟩ = Except.error e) :
    e.status_code = 422 ∧ e.status_code ≠ 500 := by
  obtain ⟨pe, _, he⟩ := get_embeddings_error_cases net m _ e h
  subst he
  refine ⟨rfl, ?_⟩
  show (422 : Nat) ≠ 500
  decide

/-- C3, witness: instantiation of `c3_malformed_base64_422` on the spec's
malformed input `"not-valid-base64!!"`, whose decode genuinely fails. -/
theorem c3_witness :
    get_embeddings failNet stubModel ⟨InputType.image_base64, badB64⟩ =
      Except.error ⟨422, "422: Error processing base64 image: Incorrect padding"⟩ ∧
    ((⟨422, "422: Error processing base64 image: Incorrect padding"⟩ : HTTPError).status_code = 422 ∧
      (⟨422, "422: Error processing base64 image: Incorrect padding"⟩ : HTTPError).status_code ≠ 500) :=
  ⟨rfl, c3_malformed_base64_422 failNet stubModel badB64 _ rfl⟩

/-! ### Claim C9 -/

/-- C9: an `HTTPException(422, detail)` raised inside `download_image` or
`process_base64_image` is caught by the outer catch-all of
`get_embeddings` and re-raised as a *new* `HTTPException(422, str(e))`
whose detail is the string form `"<status>: <detail>"` of the inner
exception (hence begins `"422: Error downloading image: ..."` resp.
`"422: Error processing base64 image: ..."`), which differs from the inner
detail itself. -/
theorem c9_rewrapped_detail {α : Type} (net : Net) (m : ClipModel α)
    (s : List Char) (he : HTTPError) :
    (download_image net s = Except.error he →
      get_embeddings net m ⟨InputType.image_url, s⟩ =
        Except.error ⟨422, toString he.status_code ++ ": " ++ he.detail⟩) ∧
    (process_base64_image s = Except.error he →
      get_embeddings net m ⟨InputType.image_base64, s⟩ =
        Except.error ⟨422, toString he.status_code ++ ": " ++ he.detail⟩) ∧
    (he.status_code = 422 → toString he.status_code ++ ": " ++ he.detail ≠ he.detail) := by
  refine ⟨?_, ?_, ?_⟩
  · intro hd
    simp only [get_embeddings, runEmbedding, hd, pyStr]
  · intro hp
    simp only [get_embeddings, runEmbedding, hp, pyStr]
  · intro h422 hc
    rw [h422] at hc
    have h1 : toString (422 : Nat) = "422" := rfl
    rw [h1] at hc
    have hlen := congrArg String.length hc
    rw [String.length_append, String.length_append] at hlen
    have h3 : ("422" : String).length = 3 := rfl
    have h4 : (": " : String).length = 2 := rfl
    omega

/-- C9, witness: instantiation of `c9_rewrapped_detail` on the failing
base64 input `"not-valid-base64!!"`. -/
theorem c9_witness :
    process_base64_image badB64 =
      Except.error ⟨422, "Error processing base64 image: Incorrect padding"⟩ ∧
    get_embeddings failNet stubModel ⟨InputType.image_base64, badB64⟩ =
      Except.error ⟨422, toString (422 : Nat) ++ ": " ++ "Error processing base64 image: Incorrect padding"⟩ :=
  ⟨rfl, (c9_rewrapped_detail failNet stubModel badB64
    ⟨422, "Error processing base64 image: Incorrect padding"⟩).2.1 rfl⟩

/-! ### Claim C1 -/

/-- C1: whenever `POST /embeddings` succeeds, the `embedding_dimension`
field equals the length of the `embeddings` list; and — given that the
model's text encoder has the fixed output width `clipOutputDim = 512`
(modelled from the spec, the encoder being external) — on every text
request that succeeds the dimension is 512. -/
theorem c1_dimension_equals_length {α : Type} (net : Net) (m : ClipModel α)
    (req : EmbeddingRequest) (resp : EmbeddingResponse α)
    (hm : ∀ t v, m.encode_text t = Except.ok v → v.length = clipOutputDim)
    (hok : get_embeddings net m req = Except.ok resp) :
    resp.embedding_dimension = resp.embeddings.length ∧
    (req.type = InputType.text → resp.embedding_dimension = 512) := by
  cases hr : runEmbedding net m req with
  | error pe =>
    simp only [get_embeddings, hr] at hok
    exact Except.noConfusion hok
  | ok v =>
    simp only [get_embeddings, hr, Except.ok.injEq] at hok
    subst hok
    refine ⟨rfl, ?_⟩
    intro htype
    obtain ⟨t, i⟩ := req
    simp only at htype
    subst htype
    simp only [runEmbedding] at hr
    cases henc : m.encode_text i with
    | ok w =>
      rw [henc] at hr
      simp only [Except.ok.injEq] at hr
      subst hr
      simpa [clipOutputDim] using hm i w henc
    | error msg =>
      rw [henc] at hr
      exact Except.noConfusion hr

/-- C1, witness: instantiation of `c1_dimension_equals_length` on a text
request against the 512-wide stub model. -/
theorem c1_witness :
    get_embeddings failNet stubModel ⟨InputType.text, ['h', 'i']⟩ =
      Except.ok ⟨"success", List.replicate 512 0, (List.replicate 512 (0 : Int)).length⟩ ∧
    ((⟨"success", List.replicate 512 0, (List.replicate 512 (0 : Int)).length⟩ :
        EmbeddingResponse Int).embedding_dimension =
      (⟨"success", List.replicate 512 0, (List.replicate 512 (0 : Int)).length⟩ :
        EmbeddingResponse Int).embeddings.length ∧
      ((⟨InputType.text, ['h', 'i']⟩ : EmbeddingRequest).type = InputType.text →
        (⟨"success", List.replicate 512 0, (List.replicate 512 (0 : Int)).length⟩ :
          EmbeddingResponse Int).embedding_dimension = 512)) :=
  ⟨rfl, c1_dimension_equals_length failNet stubModel ⟨InputType.text, ['h', 'i']⟩ _
    (fun t v hv => by
      have hrep : List.replicate 512 (0 : Int) = v := Except.ok.inj hv
      rw [← hrep, List.length_replicate]
      rfl)
    rfl⟩

/-! ### Claim C4 -/

/-- C4: `download_image` fetches through the network oracle exactly at
timeout value 10 (the literal of `requests.get(url, timeout=10)`): its
result depends on the oracle only at `(url, 10)`; on network
failure/timeout the handler fails with a 422 carrying the underlying
cause, and on a non-2xx response status it fails with a 422 carrying the
status error.  Being a total function of the oracle's outcome, it cannot
hang once the fetch has resolved. -/
theorem c4_download_behavior (net : Net) (url : List Char) :
    requestTimeout = 10 ∧
    (∀ net2 : Net, net url 10 = net2 url 10 →
      download_image net url = download_image net2 url) ∧
    (∀ cause, net url 10 = Except.error cause →
      download_image net url = Except.error ⟨422, "Error downloading image: " ++ cause⟩) ∧
    (∀ resp, net url 10 = Except.ok resp →
      ¬(200 ≤ resp.status_code ∧ resp.status_code ≤ 299) →
      download_image net url =
        Except.error ⟨422, "Error downloading image: HTTP error " ++ toString resp.status_code⟩) := by
  refine ⟨rfl, ?_, ?_, ?_⟩
  · intro net2 hsame
    rw [download_image, download_image]
    simp only [requestTimeout]
    rw [hsame]
  · intro cause hc
    rw [download_image]
    simp only [requestTimeout]
    rw [hc]
  · intro resp hr hstatus
    rw [download_image]
    simp only [requestTimeout]
    rw [hr]
    simp only [raise_for_status, if_neg hstatus]
    rfl

/-- C4, witness: instantiation of `c4_download_behavior` on an oracle
whose fetch fails (unreachable host). -/
theorem c4_witness :
    download_image failNet ['u'] =
      Except.error ⟨422, "Error downloading image: unreachable host"⟩ :=
  (c4_download_behavior failNet ['u']).2.2.1 "unreachable host" rfl

/-! ### Claim C6 -/

/-- C6: `GET /health` always succeeds (HTTP 200) with body
`{status: "healthy", device: <the device selected at startup>, model: "ViT-B/32"}`,
for either startup device selection; the handler reads no request state
and performs no effects, so prior request failures cannot affect it. -/
theorem c6_health_always_healthy (cudaAvailable : Bool) :
    health_check (selectDevice cudaAvailable) =
      Except.ok ⟨"healthy", selectDevice cudaAvailable, "ViT-B/32"⟩ := rfl

/-! ### Claim C7 -/

/-- C7: for a fixed text input and a fixed (frozen) model, two calls to
`POST /embeddings` return identical results — the handler is a pure
function of the model and the request, introduces no hidden randomness,
and on the text path does not even consult the network oracle. -/
theorem c7_text_deterministic {α : Type} (net1 net2 : Net) (m : ClipModel α) (t : List Char) :
    get_embeddings net1 m ⟨InputType.text, t⟩ = get_embeddings net2 m ⟨InputType.text, t⟩ := rfl

end ClipApi
